import Mathlib

/-!
Shallow embedding of the trash-sweeper core of SurpriseDog/Regular-Recycler
(src/RegularRecycler.py and its near-duplicate src/empty.trash.py).

The embedded core consists of:
  * `walk`      (source function `walk`, lines 163-168): a generator that, for
    each scandir child of a directory, first yields the whole recursive walk of
    the child when the child is a directory and not a symlink
    (`entry.is_dir() and not entry.is_symlink()`), and then yields the child
    itself.  Modelled by `walkEntry` / `walkList`.
  * `delete`    (lines 171-181): prints (ignored here) and, when the global
    DESTROY flag is set, calls `os.remove(entry.path)`.  On POSIX `os.remove`
    unlinks a regular file but raises `IsADirectoryError` when the path is a
    directory; that OS behaviour is modelled by `osRemove`.
  * `is_empty`  (lines 184-185): fresh scandir of the path, true iff no entry.
  * the per-entry body of `main`'s walk loop (lines 216-229), modelled by
    `classify` (stat, counter updates and the if/elif decision) and fused with
    the traversal in `sweepEntry` / `sweepList` (the walk generator is lazy, so
    deletions performed for one entry happen before the next entry is yielded;
    the big-step recursion below reproduces exactly that interleaving).
  * the per-root loop of `main` (lines 206-229), modelled by `sweepRoots`,
    and `runMain` starting from all-zero counters (lines 202-205).

Modelling conventions:
  * Filesystem state is the inductive tree `FSEntry`; a symlink records what
    `DirEntry.is_dir()` would report for it (is_dir follows links) and the
    listing of its target, so that the walk guard can be stated faithfully.
  * `stat` results are part of the tree (`size`, `mtime`); a failing
    `entry.stat(follow_symlinks=False)` call is modelled by `statOk = false`.
    The Python code wraps no try/except around the loop body, so a raised
    OSError propagates out of `main`; this is modelled by `Except`, with
    `.error ()` meaning an uncaught exception aborting the run.
  * Thresholds are floats in Python (days/MB scaled to seconds/bytes before
    the loop); the comparisons `age > min_age` etc. are modelled over `Int`
    with exact arithmetic, `age = now - st_mtime` with `now` fixed for the run.
  * Counters are the four accumulators of `main`; `st_size` is non-negative,
    so sizes are `Nat`.
-/

/-- Threshold configuration as derived at the top of `main`: `min_age`,
`large_min_age` in seconds, `large_min_size` in bytes, plus the DESTROY flag
(the VERBOSE flag only affects printing and is omitted). -/
structure Config where
  min_age : Int
  large_min_size : Int
  large_min_age : Int
  destroy : Bool
deriving Repr, DecidableEq

/-- The four counters of `main`: `del_count`, `total_count`, `del_size`,
`total_size` (lines 202-205, all initialised to 0). -/
structure Counters where
  del_count : Nat
  total_count : Nat
  del_size : Nat
  total_size : Nat
deriving Repr, DecidableEq

/-- A filesystem entry as seen by `os.scandir`.  A directory stores its own
`st_size` (directories have a real, filesystem-dependent `st_size`, typically
4096 — the code uses it unchanged), its `st_mtime` and children.  A symlink
stores what `DirEntry.is_dir()` reports for it (true when it points to a
directory, since `is_dir()` follows links) and the listing of its target.
`statOk = false` models an entry whose
`entry.stat(follow_symlinks=False)` call raises an OSError. -/
inductive FSEntry : Type where
  | file (size : Nat) (mtime : Int) (statOk : Bool)
  | dir (size : Nat) (mtime : Int) (statOk : Bool) (children : List FSEntry)
  | symlink (targetIsDir : Bool) (mtime : Int) (targetChildren : List FSEntry)
deriving Repr

/-- `DirEntry.is_dir()` — follows symlinks, so a symlink to a directory
reports true. -/
def FSEntry.is_dir : FSEntry → Bool
  | .file _ _ _ => false
  | .dir _ _ _ _ => true
  | .symlink b _ _ => b

/-- `DirEntry.is_symlink()`. -/
def FSEntry.is_symlink : FSEntry → Bool
  | .symlink _ _ _ => true
  | _ => false

/-- The directory listing scandir would produce for this entry's path:
children of a directory, the target's listing for a symlink, nothing for a
regular file. -/
def FSEntry.kids : FSEntry → List FSEntry
  | .file _ _ _ => []
  | .dir _ _ _ cs => cs
  | .symlink _ _ cs => cs

mutual

/-- The sequence of entries the generator `walk` yields for one scandir child:
when `entry.is_dir() and not entry.is_symlink()`, the recursive walk of the
child comes first, then the child itself is yielded; otherwise just the child
(lines 165-168).  A symlink is never recursed into because `is_symlink()` is
true for it, even when `is_dir()` is also true. -/
def walkEntry : FSEntry → List FSEntry
  | .file sz m ok => [.file sz m ok]
  | .symlink b m tc => [.symlink b m tc]
  | .dir sz m ok cs => walkList cs ++ [.dir sz m ok cs]

/-- `walk(dirname)` yields, for the scandir children in order, the
`walkEntry` sequence of each. -/
def walkList : List FSEntry → List FSEntry
  | [] => []
  | e :: es => walkEntry e ++ walkList es

end

/-- `os.remove(path)` as the OS defines it: unlinks a regular file, raises
`IsADirectoryError` (an OSError) when the path names a directory. -/
def osRemove (isDir : Bool) : Except Unit Unit :=
  if isDir then .error () else .ok ()

/-- The source function `delete(entry, size, age)` (lines 171-181): printing
ignored; when DESTROY is set it calls `os.remove(entry.path)`.  Returns
whether the entry was actually removed from the filesystem; an OSError from
`os.remove` propagates (there is no try/except). -/
def delete (cfg : Config) (isDir : Bool) : Except Unit Bool :=
  if cfg.destroy then
    match osRemove isDir with
    | .error e => .error e
    | .ok _ => .ok true
  else
    .ok false

/-- The staleness / large-file condition of line 226:
`age > min_age or (size > large_min_size and age > large_min_age)`. -/
def fileEligible (cfg : Config) (size : Nat) (age : Int) : Bool :=
  decide (age > cfg.min_age) ||
    (decide ((size : Int) > cfg.large_min_size) && decide (age > cfg.large_min_age))

/-- The loop body of `main` for one non-symlink entry after a successful
`stat` (lines 220-229): compute `size` and `age`, bump `total_count` and
`total_size`, then
`if entry.is_dir() and age > min_age and is_empty(path): delete(...)`
`elif age > min_age or (size > large_min_size and age > large_min_age):`
`    delete(...); del_count += 1; del_size += size`.
`empty` is the value `is_empty(entry.path)` would return at this moment.
Returns the updated counters and whether the entry still exists on the
filesystem afterwards; `.error` is an uncaught exception from `delete`
(note the `del_count`/`del_size` increments of lines 228-229 come after the
`delete` call of line 227, so they do not happen when `delete` raises). -/
def classify (cfg : Config) (now : Int) (c : Counters) (isDir : Bool)
    (mtime : Int) (size : Nat) (empty : Bool) : Except Unit (Counters × Bool) :=
  let age : Int := now - mtime
  let c1 : Counters :=
    { c with total_count := c.total_count + 1, total_size := c.total_size + size }
  if isDir && decide (age > cfg.min_age) && empty then
    match delete cfg isDir with
    | .error e => .error e
    | .ok removed => .ok (c1, !removed)
  else if fileEligible cfg size age then
    match delete cfg isDir with
    | .error e => .error e
    | .ok removed =>
        .ok ({ c1 with del_count := c1.del_count + 1, del_size := c1.del_size + size },
             !removed)
  else
    .ok (c1, true)

mutual

/-- Processing of one walked entry and everything the walk yields before it
(its subtree, when it is a non-symlink directory), exactly as the lazy
generator interleaves with the loop body of `main`:
  * a symlink is skipped by `if entry.is_symlink(): continue` (line 217) and
    is never recursed into by `walk`, so counters and filesystem are untouched;
  * a file is classified directly (its `stat` raising when `statOk` is false,
    line 219, before any counter is touched);
  * for a directory, the walk yields and processes all children first; the
    directory itself is then statted and classified, `is_empty(entry.path)`
    being evaluated at that moment, i.e. on the children that remain after
    their processing.
Returns the updated counters and the entry as it remains on the filesystem
(`none` when it was removed). -/
def sweepEntry (cfg : Config) (now : Int) (c : Counters) :
    FSEntry → Except Unit (Counters × Option FSEntry)
  | .symlink b m tc => .ok (c, some (.symlink b m tc))
  | .file sz m ok =>
      if ok then
        match classify cfg now c false m sz false with
        | .error e => .error e
        | .ok (c1, surv) => .ok (c1, if surv then some (.file sz m ok) else none)
      else .error ()
  | .dir sz m ok cs =>
      match sweepList cfg now c cs with
      | .error e => .error e
      | .ok (c1, cs1) =>
          if ok then
            match classify cfg now c1 true m sz cs1.isEmpty with
            | .error e => .error e
            | .ok (c2, surv) => .ok (c2, if surv then some (.dir sz m ok cs1) else none)
          else .error ()

/-- Processing of the scandir children of one directory in order, threading
counters and collecting the children that remain on the filesystem. -/
def sweepList (cfg : Config) (now : Int) (c : Counters) :
    List FSEntry → Except Unit (Counters × List FSEntry)
  | [] => .ok (c, [])
  | e :: es =>
      match sweepEntry cfg now c e with
      | .error x => .error x
      | .ok (c1, r) =>
          match sweepList cfg now c1 es with
          | .error x => .error x
          | .ok (c2, rs) => .ok (c2, r.toList ++ rs)

end

/-- One candidate trash root as `main` sees it: whether `os.path.exists`
holds, whether `os.access(dirname, os.W_OK)` holds, and its listing. -/
structure Root where
  present : Bool
  writable : Bool
  children : List FSEntry
deriving Repr

/-- The per-root loop of `main` (lines 206-229): a root that does not exist
or is not writable is reported and skipped (`continue`), and the loop goes on
with the next root; otherwise the root is walked and every yielded entry
processed.  An exception escaping the walk loop aborts the whole run (there
is no try/except around it). -/
def sweepRoots (cfg : Config) (now : Int) (c : Counters) :
    List Root → Except Unit (Counters × List Root)
  | [] => .ok (c, [])
  | r :: rs =>
      if !r.present || !r.writable then
        match sweepRoots cfg now c rs with
        | .error x => .error x
        | .ok (c1, rs1) => .ok (c1, r :: rs1)
      else
        match sweepList cfg now c r.children with
        | .error x => .error x
        | .ok (c1, cs1) =>
            match sweepRoots cfg now c1 rs with
            | .error x => .error x
            | .ok (c2, rs1) => .ok (c2, { r with children := cs1 } :: rs1)

/-- `main` restricted to its core: all four counters start at 0
(lines 202-205) and each root is swept in order.  Returns the final counters
and the filesystem as it remains. -/
def runMain (cfg : Config) (now : Int) (roots : List Root) :
    Except Unit (Counters × List Root) :=
  sweepRoots cfg now ⟨0, 0, 0, 0⟩ roots

mutual

/-- The entries contained in an entry through non-symlink directories only:
each scandir child together with, recursively, what it contains.  What a
symlink's target contains is behind the link, not inside the entry. -/
def descendants : FSEntry → List FSEntry
  | .file _ _ _ => []
  | .symlink _ _ _ => []
  | .dir _ _ _ cs => descList cs

/-- `descendants` over a listing. -/
def descList : List FSEntry → List FSEntry
  | [] => []
  | e :: es => e :: (descendants e ++ descList es)

end

/-! ## Basic facts about the classification step -/

/-- In dry-run mode `delete` performs no removal and cannot raise. -/
theorem delete_dry (cfg : Config) (isDir : Bool) (h : cfg.destroy = false) :
    delete cfg isDir = .ok false := by
  simp [delete, h]

/-- In destroy mode `delete` removes a file but raises on a directory. -/
theorem delete_destroy (cfg : Config) (isDir : Bool) (h : cfg.destroy = true) :
    delete cfg isDir = if isDir then .error () else .ok true := by
  cases isDir <;> simp [delete, osRemove, h]

/-- Whenever `classify` returns normally, `total_count` grew by one and
`total_size` by the entry's `st_size` — for directories just as for files. -/
theorem classify_ok_totals (cfg : Config) (now : Int) (c : Counters) (isDir : Bool)
    (mtime : Int) (size : Nat) (empty : Bool) (c2 : Counters) (surv : Bool)
    (h : classify cfg now c isDir mtime size empty = .ok (c2, surv)) :
    c2.total_count = c.total_count + 1 ∧ c2.total_size = c.total_size + size := by
  unfold classify at h
  dsimp only at h
  repeat' split at h
  all_goals first
    | exact Except.noConfusion h
    | (simp only [Except.ok.injEq, Prod.mk.injEq] at h
       obtain ⟨h1, h2⟩ := h
       subst h1
       exact ⟨rfl, rfl⟩)

/-- Whenever `classify` returns normally, the deleted counters either both
stand still or grew by exactly one entry and its `st_size`. -/
theorem classify_ok_dels (cfg : Config) (now : Int) (c : Counters) (isDir : Bool)
    (mtime : Int) (size : Nat) (empty : Bool) (c2 : Counters) (surv : Bool)
    (h : classify cfg now c isDir mtime size empty = .ok (c2, surv)) :
    (c2.del_count = c.del_count ∧ c2.del_size = c.del_size) ∨
      (c2.del_count = c.del_count + 1 ∧ c2.del_size = c.del_size + size) := by
  unfold classify at h
  dsimp only at h
  repeat' split at h
  all_goals first
    | exact Except.noConfusion h
    | (simp only [Except.ok.injEq, Prod.mk.injEq] at h
       obtain ⟨h1, h2⟩ := h
       subst h1
       first
         | exact Or.inl ⟨rfl, rfl⟩
         | exact Or.inr ⟨rfl, rfl⟩)

/-! ## Claim theorems: per-entry file handling -/

/-- C1: every non-symlink file entry the sweep visits whose age exceeds
`min_age`, or whose size exceeds `large_min_size` while its age exceeds
`large_min_age` (so in particular large-and-aging files with
`age ≤ min_age`), is removed from the filesystem in destroy mode and kept but
flagged in a dry run, and in both modes `del_count` grows by 1 and `del_size`
by the file's size (with `total_count`/`total_size` growing alongside). -/
theorem C1_eligible_file_deleted (cfg : Config) (now : Int) (c : Counters)
    (sz : Nat) (m : Int)
    (h : now - m > cfg.min_age ∨
      ((sz : Int) > cfg.large_min_size ∧ now - m > cfg.large_min_age)) :
    sweepEntry cfg now c (.file sz m true) =
      .ok ({ del_count := c.del_count + 1, total_count := c.total_count + 1,
             del_size := c.del_size + sz, total_size := c.total_size + sz },
           if cfg.destroy then none else some (.file sz m true)) := by
  have hf : fileEligible cfg sz (now - m) = true := by
    simp only [fileEligible, Bool.or_eq_true, Bool.and_eq_true, decide_eq_true_eq]
    tauto
  cases hdes : cfg.destroy <;>
    simp [sweepEntry, classify, delete, osRemove, hf, hdes]

/-- C1 witness: a 5 MB file 400 days old with the default thresholds
(365-day `min_age`), destroy mode; and a 150 MB file only 70 days old
(large-and-aging, `age ≤ min_age`), dry run. -/
theorem C1_eligible_file_deleted_witness :
    ((400 * 86400 : Int) - 0 > (⟨365 * 86400, 100 * 1000000, 64 * 86400, true⟩ : Config).min_age ∨
      ((5000000 : Nat) : Int) > (⟨365 * 86400, 100 * 1000000, 64 * 86400, true⟩ : Config).large_min_size ∧
        (400 * 86400 : Int) - 0 > (⟨365 * 86400, 100 * 1000000, 64 * 86400, true⟩ : Config).large_min_age) ∧
    sweepEntry ⟨365 * 86400, 100 * 1000000, 64 * 86400, true⟩ (400 * 86400) ⟨0, 0, 0, 0⟩
        (.file 5000000 0 true) = .ok (⟨1, 1, 5000000, 5000000⟩, none) ∧
    sweepEntry ⟨365 * 86400, 100 * 1000000, 64 * 86400, false⟩ (70 * 86400) ⟨0, 0, 0, 0⟩
        (.file 150000000 0 true) =
      .ok (⟨1, 1, 150000000, 150000000⟩, some (.file 150000000 0 true)) := by
  refine ⟨by decide, ?_, ?_⟩
  · exact C1_eligible_file_deleted ⟨365 * 86400, 100 * 1000000, 64 * 86400, true⟩
      (400 * 86400) ⟨0, 0, 0, 0⟩ 5000000 0 (by decide)
  · exact C1_eligible_file_deleted ⟨365 * 86400, 100 * 1000000, 64 * 86400, false⟩
      (70 * 86400) ⟨0, 0, 0, 0⟩ 150000000 0 (by decide)

/-- C2: a non-symlink entry with `age ≤ min_age` and
(`size ≤ large_min_size` or `age ≤ large_min_age`) is kept in both modes:
a file survives untouched, a directory survives (only its children having
been processed), `total_count` grows by one for the entry itself and
`del_count` does not move for it. -/
theorem C2_fresh_entry_kept (cfg : Config) (now : Int) (sz : Nat) (m : Int)
    (h1 : now - m ≤ cfg.min_age)
    (h2 : (sz : Int) ≤ cfg.large_min_size ∨ now - m ≤ cfg.large_min_age) :
    (∀ c : Counters,
      sweepEntry cfg now c (.file sz m true) =
        .ok ({ c with total_count := c.total_count + 1, total_size := c.total_size + sz },
             some (.file sz m true))) ∧
    (∀ (c c1 : Counters) (cs cs1 : List FSEntry),
      sweepList cfg now c cs = .ok (c1, cs1) →
      sweepEntry cfg now c (.dir sz m true cs) =
        .ok ({ c1 with total_count := c1.total_count + 1, total_size := c1.total_size + sz },
             some (.dir sz m true cs1))) := by
  have hf : fileEligible cfg sz (now - m) = false := by
    simp only [fileEligible, Bool.or_eq_false_iff, Bool.and_eq_false_iff,
      decide_eq_false_iff_not, not_lt]
    exact ⟨h1, by rcases h2 with h | h
                  · exact Or.inl (by simpa [not_lt] using h)
                  · exact Or.inr (by simpa [not_lt] using h)⟩
  have hage : decide (now - m > cfg.min_age) = false := by
    simp [not_lt.mpr h1]
  constructor
  · intro c
    simp [sweepEntry, classify, hf, hage]
  · intro c c1 cs cs1 hcs
    simp [sweepEntry, classify, hf, hage, hcs]

/-- C2 witness: with the default thresholds, a 10-day-old 150 MB file
(too young for the large-file rule) is kept, and a 5-day-old directory whose
listing is a single fresh file is kept with both children and itself only
raising the total counters. -/
theorem C2_fresh_entry_kept_witness :
    ((10 * 86400 : Int) - 0 ≤ (365 * 86400 : Int) ∧
      (((150000000 : Nat) : Int) ≤ 100 * 1000000 ∨ (10 * 86400 : Int) - 0 ≤ 64 * 86400)) ∧
    sweepEntry ⟨365 * 86400, 100 * 1000000, 64 * 86400, false⟩ (10 * 86400) ⟨0, 0, 0, 0⟩
        (.file 150000000 0 true) =
      .ok (⟨0, 1, 0, 150000000⟩, some (.file 150000000 0 true)) := by
  refine ⟨⟨by decide, Or.inr (by decide)⟩, ?_⟩
  have h := (C2_fresh_entry_kept ⟨365 * 86400, 100 * 1000000, 64 * 86400, false⟩
    (10 * 86400) 150000000 0 (by decide) (Or.inr (by decide))).1 ⟨0, 0, 0, 0⟩
  exact h

/-! ## Symlink policy and traversal order -/

/-- The yield of `walk` for one child, written with the source's guard
`entry.is_dir() and not entry.is_symlink()` over the child's scandir
listing: recursion happens exactly when the guard holds. -/
theorem walkEntry_guard (e : FSEntry) :
    walkEntry e = (if e.is_dir && !e.is_symlink then walkList e.kids else []) ++ [e] := by
  cases e <;> simp [walkEntry, FSEntry.is_dir, FSEntry.is_symlink, FSEntry.kids]

/-- C6: a symlink at any depth — including one whose `is_dir()` is true
because it points to a directory — is yielded by the walk without any of its
target's entries (never recursed through), and its processing leaves every
counter untouched (never measured) and leaves the symlink on the filesystem
(never deleted). -/
theorem C6_symlink_never_touched (b : Bool) (m : Int) (tc : List FSEntry)
    (cfg : Config) (now : Int) (c : Counters) :
    (FSEntry.symlink b m tc).is_symlink = true ∧
    walkEntry (.symlink b m tc) = [.symlink b m tc] ∧
    sweepEntry cfg now c (.symlink b m tc) = .ok (c, some (.symlink b m tc)) := by
  exact ⟨rfl, rfl, rfl⟩

/-- Every entry occurs in its own walk (it is yielded after any recursion). -/
theorem self_mem_walkEntry (e : FSEntry) : e ∈ walkEntry e := by
  rw [walkEntry_guard]; simp

mutual

/-- Everything contained in an entry shows up in the entry's walk. -/
theorem desc_mem_walkEntry (e : FSEntry) : ∀ y ∈ descendants e, y ∈ walkEntry e := by
  cases e with
  | file sz m ok => intro y hy; simp [descendants] at hy
  | symlink b m tc => intro y hy; simp [descendants] at hy
  | dir sz m ok cs =>
      intro y hy
      rw [walkEntry]
      exact List.mem_append_left _ (descList_mem_walkList cs y hy)

/-- Everything contained in a listing shows up in the listing's walk. -/
theorem descList_mem_walkList (cs : List FSEntry) : ∀ y ∈ descList cs, y ∈ walkList cs := by
  cases cs with
  | nil => intro y hy; simp [descList] at hy
  | cons e es =>
      intro y hy
      rw [descList] at hy
      rw [walkList]
      rcases List.mem_cons.mp hy with rfl | hy1
      · exact List.mem_append_left _ (self_mem_walkEntry y)
      · rcases List.mem_append.mp hy1 with h | h
        · exact List.mem_append_left _ (desc_mem_walkEntry e y h)
        · exact List.mem_append_right _ (descList_mem_walkList es y h)

end

/-- C7: in the walk of a non-symlink directory, the directory's own entry
comes last, strictly after every entry it contains (all of which lie in the
walk of its listing); and the sweep evaluates the directory's emptiness only
at its own classification, on the children list as it stands after the
children have been processed. -/
theorem C7_children_processed_first (sz : Nat) (m : Int) (ok : Bool) (cs : List FSEntry) :
    walkEntry (.dir sz m ok cs) = walkList cs ++ [.dir sz m ok cs] ∧
    (∀ y ∈ descendants (.dir sz m ok cs), y ∈ walkList cs) ∧
    (∀ (cfg : Config) (now : Int) (c c1 : Counters) (cs1 : List FSEntry),
      sweepList cfg now c cs = .ok (c1, cs1) →
      sweepEntry cfg now c (.dir sz m true cs) =
        match classify cfg now c1 true m sz cs1.isEmpty with
        | .error x => .error x
        | .ok (c2, surv) => .ok (c2, if surv then some (.dir sz m true cs1) else none)) := by
  refine ⟨rfl, ?_, ?_⟩
  · intro y hy
    exact descList_mem_walkList cs y hy
  · intro cfg now c c1 cs1 hcs
    rw [sweepEntry, hcs]
    simp

/-- C7 witness: a 400-day-old directory whose listing is one stale 5 MB file,
default thresholds, dry run. -/
theorem C7_children_processed_first_witness :
    sweepList ⟨365 * 86400, 100 * 1000000, 64 * 86400, false⟩ (400 * 86400) ⟨0, 0, 0, 0⟩
        [.file 5000000 0 true] = .ok (⟨1, 1, 5000000, 5000000⟩, [.file 5000000 0 true]) ∧
    sweepEntry ⟨365 * 86400, 100 * 1000000, 64 * 86400, false⟩ (400 * 86400) ⟨0, 0, 0, 0⟩
        (.dir 4096 0 true [.file 5000000 0 true]) =
      match classify ⟨365 * 86400, 100 * 1000000, 64 * 86400, false⟩ (400 * 86400)
          ⟨1, 1, 5000000, 5000000⟩ true 0 4096 ([FSEntry.file 5000000 0 true]).isEmpty with
      | .error x => .error x
      | .ok (c2, surv) =>
          .ok (c2, if surv then some (.dir 4096 0 true [.file 5000000 0 true]) else none) := by
  constructor
  · rfl
  · exact (C7_children_processed_first 4096 0 true [.file 5000000 0 true]).2.2
      ⟨365 * 86400, 100 * 1000000, 64 * 86400, false⟩ (400 * 86400) ⟨0, 0, 0, 0⟩
      ⟨1, 1, 5000000, 5000000⟩ [.file 5000000 0 true] rfl

/-! ## Directory deletion: what the code actually does -/

/-- C3 (code bug): an empty 400-day-old directory, default thresholds.  The
classification makes it eligible (dry run: reported and not counted, first
conjunct), but with `destroy=true` the `delete` call runs
`os.remove(entry.path)` on a directory, which raises `IsADirectoryError`;
the directory is not removed and the uncaught exception aborts the whole run
(second conjunct) — the code can never physically prune a directory. -/
theorem C3_empty_stale_dir_destroy_raises :
    runMain ⟨365 * 86400, 100 * 1000000, 64 * 86400, false⟩ (400 * 86400)
        [⟨true, true, [.dir 4096 0 true []]⟩] =
      .ok (⟨0, 1, 0, 4096⟩, [⟨true, true, [.dir 4096 0 true []]⟩]) ∧
    runMain ⟨365 * 86400, 100 * 1000000, 64 * 86400, true⟩ (400 * 86400)
        [⟨true, true, [.dir 4096 0 true []]⟩] =
      .error () := by
  exact ⟨rfl, rfl⟩

/-- C4 (code bug): a 400-day-old directory holding one fresh 1-byte file,
default thresholds.  The directory is not empty at classification time, so it
falls into the `elif age > min_age` branch: in a dry run `del_count` and
`del_size` are incremented for the directory itself (counters 1 and 4096
below come from the directory alone, the fresh child only raises the totals);
with `destroy=true` the same branch calls `os.remove` on the directory, which
raises and aborts the run instead of leaving the directory quietly in
place. -/
theorem C4_nonempty_stale_dir_counted_and_raises :
    runMain ⟨365 * 86400, 100 * 1000000, 64 * 86400, false⟩ (400 * 86400)
        [⟨true, true, [.dir 4096 0 true [.file 1 (399 * 86400) true]]⟩] =
      .ok (⟨1, 2, 4096, 4097⟩,
           [⟨true, true, [.dir 4096 0 true [.file 1 (399 * 86400) true]]⟩]) ∧
    runMain ⟨365 * 86400, 100 * 1000000, 64 * 86400, true⟩ (400 * 86400)
        [⟨true, true, [.dir 4096 0 true [.file 1 (399 * 86400) true]]⟩] =
      .error () := by
  exact ⟨rfl, rfl⟩

/-! ## Failure semantics -/

/-- C5 counterexample: a root whose first entry's `stat` raises, followed by
a perfectly good entry and a second good root.  The loop body has no
try/except, so the single bad entry aborts the entire run: nothing after it
is processed and no counters survive, refuting the claim that the sweep
continues with the next entry. -/
theorem C5_stat_failure_aborts_run :
    runMain ⟨365 * 86400, 100 * 1000000, 64 * 86400, false⟩ (400 * 86400)
        [⟨true, true, [.file 5 0 false, .file 7 0 true]⟩,
         ⟨true, true, [.file 9 0 true]⟩] =
      .error () := by
  exact rfl

/-- C5 as amended: root-level failures are soft — a root that does not exist
or is not writable is skipped and the sweep continues with the remaining
roots unchanged (first conjunct) — but an entry-level `stat` failure raises
out of `sweepList` (second conjunct) and, the walk loop having no handler,
out of the whole run (third conjunct). -/
theorem C5_only_root_failures_are_soft :
    (∀ (cfg : Config) (now : Int) (c : Counters) (r : Root) (rs : List Root),
      r.present = false ∨ r.writable = false →
      sweepRoots cfg now c (r :: rs) =
        (sweepRoots cfg now c rs).map (fun p => (p.1, r :: p.2))) ∧
    (∀ (cfg : Config) (now : Int) (c : Counters) (sz : Nat) (m : Int)
        (es : List FSEntry),
      sweepList cfg now c (.file sz m false :: es) = .error ()) ∧
    (∀ (cfg : Config) (now : Int) (c : Counters) (r : Root) (rs : List Root),
      r.present = true → r.writable = true →
      sweepList cfg now c r.children = .error () →
      sweepRoots cfg now c (r :: rs) = .error ()) := by
  refine ⟨?_, ?_, ?_⟩
  · intro cfg now c r rs hbad
    have hb : (!r.present || !r.writable) = true := by
      rcases hbad with h | h <;> simp [h]
    cases hrec : sweepRoots cfg now c rs <;>
      simp [sweepRoots, hb, hrec, Except.map]
  · intro cfg now c sz m es
    simp [sweepList, sweepEntry]
  · intro cfg now c r rs hp hw hsl
    simp [sweepRoots, hp, hw, hsl]

/-- C5 witness: the three conjuncts instantiated — a vanished root before a
good one, a stat-failing file at the head of a listing, and a present,
writable root whose listing starts with that failing file. -/
theorem C5_only_root_failures_are_soft_witness :
    (sweepRoots ⟨365 * 86400, 100 * 1000000, 64 * 86400, false⟩ 0 ⟨0, 0, 0, 0⟩
        [⟨false, true, []⟩, ⟨true, true, [.file 9 0 true]⟩] =
      (sweepRoots ⟨365 * 86400, 100 * 1000000, 64 * 86400, false⟩ 0 ⟨0, 0, 0, 0⟩
        [⟨true, true, [.file 9 0 true]⟩]).map
          (fun p => (p.1, (⟨false, true, []⟩ : Root) :: p.2))) ∧
    (sweepList ⟨365 * 86400, 100 * 1000000, 64 * 86400, false⟩ 0 ⟨0, 0, 0, 0⟩
        [.file 5 0 false] = .error ()) ∧
    (sweepRoots ⟨365 * 86400, 100 * 1000000, 64 * 86400, false⟩ 0 ⟨0, 0, 0, 0⟩
        [⟨true, true, [.file 5 0 false]⟩] = .error ()) := by
  refine ⟨?_, ?_, ?_⟩
  · exact C5_only_root_failures_are_soft.1 _ 0 ⟨0, 0, 0, 0⟩ ⟨false, true, []⟩
      [⟨true, true, [.file 9 0 true]⟩] (Or.inl rfl)
  · exact C5_only_root_failures_are_soft.2.1 _ 0 ⟨0, 0, 0, 0⟩ 5 0 []
  · exact C5_only_root_failures_are_soft.2.2 _ 0 ⟨0, 0, 0, 0⟩ ⟨true, true, [.file 5 0 false]⟩
      [] rfl rfl rfl


/-! ## Inversion of the sweep on successful runs -/

/-- A successful sweep of `e :: es` decomposes into a successful sweep of `e`
followed by one of `es`, the remaining listing being the survivor of `e`
(if any) followed by the survivors of `es`. -/
theorem sweepList_cons_ok (cfg : Config) (now : Int) (c : Counters) (e : FSEntry)
    (es : List FSEntry) (c2 : Counters) (cs2 : List FSEntry)
    (h : sweepList cfg now c (e :: es) = .ok (c2, cs2)) :
    ∃ c1 r rs, sweepEntry cfg now c e = .ok (c1, r) ∧
      sweepList cfg now c1 es = .ok (c2, rs) ∧ cs2 = r.toList ++ rs := by
  rw [sweepList] at h
  cases he : sweepEntry cfg now c e with
  | error x => rw [he] at h; exact Except.noConfusion h
  | ok p =>
      obtain ⟨c1, r⟩ := p
      rw [he] at h
      dsimp only at h
      cases hrest : sweepList cfg now c1 es with
      | error x => rw [hrest] at h; exact Except.noConfusion h
      | ok q =>
          obtain ⟨c2a, rs⟩ := q
          rw [hrest] at h
          dsimp only at h
          simp only [Except.ok.injEq, Prod.mk.injEq] at h
          obtain ⟨h1, h2⟩ := h
          subst h1
          exact ⟨c1, r, rs, rfl, hrest, h2.symm⟩

/-- A successful sweep of a file entry decomposes into a successful `stat`
(`statOk = true`) and a successful classification, the file surviving iff the
classification says so. -/
theorem sweepEntry_file_ok (cfg : Config) (now : Int) (c : Counters) (sz : Nat)
    (m : Int) (ok : Bool) (c1 : Counters) (r : Option FSEntry)
    (h : sweepEntry cfg now c (.file sz m ok) = .ok (c1, r)) :
    ok = true ∧ ∃ surv, classify cfg now c false m sz false = .ok (c1, surv) ∧
      r = (if surv then some (.file sz m ok) else none) := by
  cases ok with
  | false => rw [sweepEntry] at h; exact Except.noConfusion h
  | true =>
      rw [sweepEntry] at h
      simp only [if_true] at h
      cases hc : classify cfg now c false m sz false with
      | error x => rw [hc] at h; exact Except.noConfusion h
      | ok p =>
          obtain ⟨cc, surv⟩ := p
          rw [hc] at h
          dsimp only at h
          simp only [Except.ok.injEq, Prod.mk.injEq] at h
          obtain ⟨h1, h2⟩ := h
          subst h1
          exact ⟨rfl, surv, rfl, h2.symm⟩

/-- A successful sweep of a directory entry decomposes into a successful
sweep of its children, a successful `stat` and a successful classification of
the directory itself, the emptiness test being taken on the children that
remain after their processing. -/
theorem sweepEntry_dir_ok (cfg : Config) (now : Int) (c : Counters) (sz : Nat)
    (m : Int) (ok : Bool) (cs : List FSEntry) (c2 : Counters) (r : Option FSEntry)
    (h : sweepEntry cfg now c (.dir sz m ok cs) = .ok (c2, r)) :
    ok = true ∧ ∃ c1 cs1 surv, sweepList cfg now c cs = .ok (c1, cs1) ∧
      classify cfg now c1 true m sz cs1.isEmpty = .ok (c2, surv) ∧
      r = (if surv then some (.dir sz m ok cs1) else none) := by
  rw [sweepEntry] at h
  cases hs : sweepList cfg now c cs with
  | error x => rw [hs] at h; exact Except.noConfusion h
  | ok q =>
      obtain ⟨c1, cs1⟩ := q
      rw [hs] at h
      dsimp only at h
      cases ok with
      | false => exact Except.noConfusion h
      | true =>
          simp only [if_true] at h
          cases hc : classify cfg now c1 true m sz cs1.isEmpty with
          | error x => rw [hc] at h; exact Except.noConfusion h
          | ok p =>
              obtain ⟨cc, surv⟩ := p
              rw [hc] at h
              dsimp only at h
              simp only [Except.ok.injEq, Prod.mk.injEq] at h
              obtain ⟨h1, h2⟩ := h
              subst h1
              exact ⟨rfl, c1, cs1, surv, rfl, hc, h2.symm⟩

/-- A successful sweep of `r :: rs` decomposes: either the root is skipped
(absent or unwritable) and only the rest is swept, or its listing is swept
successfully and then the rest. -/
theorem sweepRoots_cons_ok (cfg : Config) (now : Int) (c : Counters) (r : Root)
    (rs : List Root) (c2 : Counters) (rs2 : List Root)
    (h : sweepRoots cfg now c (r :: rs) = .ok (c2, rs2)) :
    ((!r.present || !r.writable) = true ∧ ∃ rs1, sweepRoots cfg now c rs = .ok (c2, rs1) ∧
        rs2 = r :: rs1) ∨
    ((!r.present || !r.writable) = false ∧ ∃ c1 cs1 rs1,
        sweepList cfg now c r.children = .ok (c1, cs1) ∧
        sweepRoots cfg now c1 rs = .ok (c2, rs1) ∧
        rs2 = { r with children := cs1 } :: rs1) := by
  rw [sweepRoots] at h
  split at h
  · rename_i hb
    left
    refine ⟨hb, ?_⟩
    cases hrec : sweepRoots cfg now c rs with
    | error x => rw [hrec] at h; exact Except.noConfusion h
    | ok q =>
        obtain ⟨c2a, rs1⟩ := q
        rw [hrec] at h
        dsimp only at h
        simp only [Except.ok.injEq, Prod.mk.injEq] at h
        obtain ⟨h1, h2⟩ := h
        subst h1
        exact ⟨rs1, rfl, h2.symm⟩
  · rename_i hb
    right
    refine ⟨by simpa using hb, ?_⟩
    cases hs : sweepList cfg now c r.children with
    | error x => rw [hs] at h; exact Except.noConfusion h
    | ok p =>
        obtain ⟨c1, cs1⟩ := p
        rw [hs] at h
        dsimp only at h
        cases hrec : sweepRoots cfg now c1 rs with
        | error x => rw [hrec] at h; exact Except.noConfusion h
        | ok q =>
            obtain ⟨c2a, rs1⟩ := q
            rw [hrec] at h
            dsimp only at h
            simp only [Except.ok.injEq, Prod.mk.injEq] at h
            obtain ⟨h1, h2⟩ := h
            subst h1
            exact ⟨c1, cs1, rs1, rfl, hrec, h2.symm⟩

/-! ## Dry run performs no mutation -/

/-- In a dry run the classification step always leaves the entry on the
filesystem: `delete` never calls `os.remove` when DESTROY is unset. -/
theorem classify_dry_surv (cfg : Config) (now : Int) (c : Counters) (isDir : Bool)
    (mtime : Int) (size : Nat) (empty : Bool) (c2 : Counters) (surv : Bool)
    (hd : cfg.destroy = false)
    (h : classify cfg now c isDir mtime size empty = .ok (c2, surv)) :
    surv = true := by
  unfold classify at h
  dsimp only at h
  rw [delete_dry cfg isDir hd] at h
  dsimp only at h
  repeat' split at h
  all_goals
    simp only [Except.ok.injEq, Prod.mk.injEq] at h
    obtain ⟨h1, h2⟩ := h
    subst h2
    rfl

mutual

/-- In a dry run, processing an entry that completes normally leaves the
entry — and, recursively, everything below it — exactly as it was. -/
theorem sweepEntry_dry (cfg : Config) (now : Int) (c : Counters) (e : FSEntry)
    (c1 : Counters) (r : Option FSEntry) (hd : cfg.destroy = false)
    (h : sweepEntry cfg now c e = .ok (c1, r)) : r = some e := by
  cases e with
  | symlink b m tc =>
      rw [sweepEntry] at h
      simp only [Except.ok.injEq, Prod.mk.injEq] at h
      exact h.2.symm
  | file sz m ok =>
      obtain ⟨hok, surv, hc, hr⟩ := sweepEntry_file_ok cfg now c sz m ok c1 r h
      subst hok
      rw [classify_dry_surv cfg now c false m sz false c1 surv hd hc] at hr
      simpa using hr
  | dir sz m ok cs =>
      obtain ⟨hok, ca, cs1, surv, hs, hc, hr⟩ := sweepEntry_dir_ok cfg now c sz m ok cs c1 r h
      subst hok
      have hcs : cs1 = cs := sweepList_dry cfg now c cs ca cs1 hd hs
      subst hcs
      rw [classify_dry_surv cfg now ca true m sz cs1.isEmpty c1 surv hd hc] at hr
      simpa using hr

/-- In a dry run, processing a listing that completes normally leaves the
listing exactly as it was. -/
theorem sweepList_dry (cfg : Config) (now : Int) (c : Counters) (cs : List FSEntry)
    (c1 : Counters) (cs1 : List FSEntry) (hd : cfg.destroy = false)
    (h : sweepList cfg now c cs = .ok (c1, cs1)) : cs1 = cs := by
  cases cs with
  | nil =>
      rw [sweepList] at h
      simp only [Except.ok.injEq, Prod.mk.injEq] at h
      exact h.2.symm
  | cons e es =>
      obtain ⟨ca, r, rs, he, hrest, hcs⟩ := sweepList_cons_ok cfg now c e es c1 cs1 h
      rw [sweepEntry_dry cfg now c e ca r hd he] at hcs
      rw [sweepList_dry cfg now ca es c1 rs hd hrest] at hcs
      simpa using hcs

end

/-- In a dry run, a completed sweep returns every root — existing or skipped
— with its exact original listing. -/
theorem sweepRoots_dry (cfg : Config) (now : Int) (c : Counters) (roots : List Root)
    (c1 : Counters) (rs1 : List Root) (hd : cfg.destroy = false)
    (h : sweepRoots cfg now c roots = .ok (c1, rs1)) : rs1 = roots := by
  induction roots generalizing c c1 rs1 with
  | nil =>
      rw [sweepRoots] at h
      simp only [Except.ok.injEq, Prod.mk.injEq] at h
      exact h.2.symm
  | cons r rs ih =>
      rcases sweepRoots_cons_ok cfg now c r rs c1 rs1 h with
        ⟨_, rsa, hrec, hout⟩ | ⟨_, ca, cs1, rsa, hs, hrec, hout⟩
      · rw [ih c c1 rsa hrec] at hout
        exact hout
      · rw [sweepList_dry cfg now c r.children ca cs1 hd hs] at hout
        rw [ih ca c1 rsa hrec] at hout
        rw [hout]

/-- C8: with `destroy=false` the run mutates nothing — a completed dry run
hands every root back with its original tree — and rerunning it on that
unchanged tree reproduces the very same four counters (and the same tree). -/
theorem C8_dry_run_no_mutation (cfg : Config) (now : Int) (roots : List Root)
    (c : Counters) (rs1 : List Root) (hd : cfg.destroy = false)
    (h : runMain cfg now roots = .ok (c, rs1)) :
    rs1 = roots ∧ runMain cfg now rs1 = .ok (c, rs1) := by
  have he : rs1 = roots := sweepRoots_dry cfg now ⟨0, 0, 0, 0⟩ roots c rs1 hd h
  subst he
  exact ⟨rfl, h⟩

/-- C8 witness: a dry run over one root holding a stale 5 MB file: the tree
comes back unchanged and the rerun returns the identical counters. -/
theorem C8_dry_run_no_mutation_witness :
    [(⟨true, true, [.file 5000000 0 true]⟩ : Root)] = [⟨true, true, [.file 5000000 0 true]⟩] ∧
    runMain ⟨365 * 86400, 100 * 1000000, 64 * 86400, false⟩ (400 * 86400)
        [⟨true, true, [.file 5000000 0 true]⟩] =
      .ok (⟨1, 1, 5000000, 5000000⟩, [⟨true, true, [.file 5000000 0 true]⟩]) := by
  exact C8_dry_run_no_mutation ⟨365 * 86400, 100 * 1000000, 64 * 86400, false⟩
    (400 * 86400) [⟨true, true, [.file 5000000 0 true]⟩] ⟨1, 1, 5000000, 5000000⟩
    [⟨true, true, [.file 5000000 0 true]⟩] rfl rfl

/-! ## What counts toward the byte totals -/

/-- C9 counterexample: one root holding a single fresh directory whose
`st_size` is 4096 and no files at all; dry run, default thresholds, `now` 90
seconds past the directory's mtime.  The code uses `stat.st_size` for the
directory unchanged, so `total_size` ends at 4096, not 0 — `total_bytes`
does not accumulate only file sizes. -/
theorem C9_dir_size_counted :
    runMain ⟨365 * 86400, 100 * 1000000, 64 * 86400, false⟩ 90
        [⟨true, true, [.dir 4096 0 true []]⟩] =
      .ok (⟨0, 1, 0, 4096⟩, [⟨true, true, [.dir 4096 0 true []]⟩]) ∧
    (4096 : Nat) ≠ 0 := by
  exact ⟨rfl, by decide⟩

/-- C9 as amended: the size the sweep uses for every visited entry is the
entry's own `stat.st_size` — for directories just as for files, not 0 — and
each successful classification adds exactly 1 to `total_count` and that
`st_size` to `total_size`. -/
theorem C9_st_size_used_for_all_entries (cfg : Config) (now : Int) (c : Counters)
    (isDir : Bool) (mtime : Int) (size : Nat) (empty : Bool) (c2 : Counters)
    (surv : Bool)
    (h : classify cfg now c isDir mtime size empty = .ok (c2, surv)) :
    c2.total_count = c.total_count + 1 ∧ c2.total_size = c.total_size + size := by
  exact classify_ok_totals cfg now c isDir mtime size empty c2 surv h

/-- C9 witness: the fresh 4096-byte directory of the counterexample setup,
classified once in a dry run. -/
theorem C9_st_size_used_for_all_entries_witness :
    classify ⟨365 * 86400, 100 * 1000000, 64 * 86400, false⟩ 90 ⟨0, 0, 0, 0⟩
        true 0 4096 true = .ok (⟨0, 1, 0, 4096⟩, true) ∧
    (⟨0, 1, 0, 4096⟩ : Counters).total_count = (⟨0, 0, 0, 0⟩ : Counters).total_count + 1 ∧
    (⟨0, 1, 0, 4096⟩ : Counters).total_size = (⟨0, 0, 0, 0⟩ : Counters).total_size + 4096 := by
  refine ⟨rfl, ?_⟩
  exact C9_st_size_used_for_all_entries ⟨365 * 86400, 100 * 1000000, 64 * 86400, false⟩
    90 ⟨0, 0, 0, 0⟩ true 0 4096 true ⟨0, 1, 0, 4096⟩ true rfl

/-! ## The deleted counters never exceed the totals -/

/-- One classification step preserves `del_count ≤ total_count` and
`del_size ≤ total_size`: the totals always gain `(1, size)` and the deleted
counters gain either nothing or the same `(1, size)`. -/
theorem classify_le (cfg : Config) (now : Int) (c : Counters) (isDir : Bool)
    (mtime : Int) (size : Nat) (empty : Bool) (c2 : Counters) (surv : Bool)
    (h : classify cfg now c isDir mtime size empty = .ok (c2, surv))
    (h1 : c.del_count ≤ c.total_count) (h2 : c.del_size ≤ c.total_size) :
    c2.del_count ≤ c2.total_count ∧ c2.del_size ≤ c2.total_size := by
  obtain ⟨ht1, ht2⟩ := classify_ok_totals cfg now c isDir mtime size empty c2 surv h
  rcases classify_ok_dels cfg now c isDir mtime size empty c2 surv h with
    ⟨hd1, hd2⟩ | ⟨hd1, hd2⟩ <;> constructor <;> omega

mutual

/-- Sweeping one entry preserves the counter ordering. -/
theorem sweepEntry_le (cfg : Config) (now : Int) (c : Counters) (e : FSEntry)
    (c1 : Counters) (r : Option FSEntry)
    (h : sweepEntry cfg now c e = .ok (c1, r))
    (h1 : c.del_count ≤ c.total_count) (h2 : c.del_size ≤ c.total_size) :
    c1.del_count ≤ c1.total_count ∧ c1.del_size ≤ c1.total_size := by
  cases e with
  | symlink b m tc =>
      rw [sweepEntry] at h
      simp only [Except.ok.injEq, Prod.mk.injEq] at h
      rw [← h.1]
      exact ⟨h1, h2⟩
  | file sz m ok =>
      obtain ⟨hok, surv, hc, hr⟩ := sweepEntry_file_ok cfg now c sz m ok c1 r h
      exact classify_le cfg now c false m sz false c1 surv hc h1 h2
  | dir sz m ok cs =>
      obtain ⟨hok, ca, cs1, surv, hs, hc, hr⟩ := sweepEntry_dir_ok cfg now c sz m ok cs c1 r h
      obtain ⟨g1, g2⟩ := sweepList_le cfg now c cs ca cs1 hs h1 h2
      exact classify_le cfg now ca true m sz cs1.isEmpty c1 surv hc g1 g2

/-- Sweeping a listing preserves the counter ordering. -/
theorem sweepList_le (cfg : Config) (now : Int) (c : Counters) (cs : List FSEntry)
    (c1 : Counters) (cs1 : List FSEntry)
    (h : sweepList cfg now c cs = .ok (c1, cs1))
    (h1 : c.del_count ≤ c.total_count) (h2 : c.del_size ≤ c.total_size) :
    c1.del_count ≤ c1.total_count ∧ c1.del_size ≤ c1.total_size := by
  cases cs with
  | nil =>
      rw [sweepList] at h
      simp only [Except.ok.injEq, Prod.mk.injEq] at h
      rw [← h.1]
      exact ⟨h1, h2⟩
  | cons e es =>
      obtain ⟨ca, r, rs, he, hrest, hcs⟩ := sweepList_cons_ok cfg now c e es c1 cs1 h
      obtain ⟨g1, g2⟩ := sweepEntry_le cfg now c e ca r he h1 h2
      exact sweepList_le cfg now ca es c1 rs hrest g1 g2

end

/-- Sweeping the roots preserves the counter ordering. -/
theorem sweepRoots_le (cfg : Config) (now : Int) (c : Counters) (roots : List Root)
    (c1 : Counters) (rs1 : List Root)
    (h : sweepRoots cfg now c roots = .ok (c1, rs1))
    (h1 : c.del_count ≤ c.total_count) (h2 : c.del_size ≤ c.total_size) :
    c1.del_count ≤ c1.total_count ∧ c1.del_size ≤ c1.total_size := by
  induction roots generalizing c c1 rs1 with
  | nil =>
      rw [sweepRoots] at h
      simp only [Except.ok.injEq, Prod.mk.injEq] at h
      rw [← h.1]
      exact ⟨h1, h2⟩
  | cons r rs ih =>
      rcases sweepRoots_cons_ok cfg now c r rs c1 rs1 h with
        ⟨_, rsa, hrec, _⟩ | ⟨_, ca, cs1, rsa, hs, hrec, _⟩
      · exact ih c c1 rsa hrec h1 h2
      · obtain ⟨g1, g2⟩ := sweepList_le cfg now c r.children ca cs1 hs h1 h2
        exact ih ca c1 rsa hrec g1 g2

/-- C10: each classification step that raises the deleted counters raises the
totals by at least as much in the same iteration (first conjunct), and since
a run starts from all-zero counters, any completed run ends with
`del_count ≤ total_count` and `del_size ≤ total_size`, so the reported
remaining count and remaining bytes (total minus deleted) are never
negative (second conjunct). -/
theorem C10_deleted_never_exceeds_total :
    (∀ (cfg : Config) (now : Int) (c : Counters) (isDir : Bool) (mtime : Int)
        (size : Nat) (empty : Bool) (c2 : Counters) (surv : Bool),
      classify cfg now c isDir mtime size empty = .ok (c2, surv) →
      c.del_count ≤ c.total_count → c.del_size ≤ c.total_size →
      c2.del_count ≤ c2.total_count ∧ c2.del_size ≤ c2.total_size) ∧
    (∀ (cfg : Config) (now : Int) (roots : List Root) (c : Counters) (rs1 : List Root),
      runMain cfg now roots = .ok (c, rs1) →
      c.del_count ≤ c.total_count ∧ c.del_size ≤ c.total_size ∧
      0 ≤ (c.total_count : Int) - (c.del_count : Int) ∧
      0 ≤ (c.total_size : Int) - (c.del_size : Int)) := by
  constructor
  · intro cfg now c isDir mtime size empty c2 surv h h1 h2
    exact classify_le cfg now c isDir mtime size empty c2 surv h h1 h2
  · intro cfg now roots c rs1 h
    obtain ⟨g1, g2⟩ := sweepRoots_le cfg now ⟨0, 0, 0, 0⟩ roots c rs1 h
      (Nat.le_refl 0) (Nat.le_refl 0)
    refine ⟨g1, g2, ?_, ?_⟩ <;> omega

/-- C10 witness: a destroy-mode run over one root with a stale 5 MB file next
to a fresh 7-byte file: 1 of 2 entries deleted, 5000000 of 5000007 bytes. -/
theorem C10_deleted_never_exceeds_total_witness :
    runMain ⟨365 * 86400, 100 * 1000000, 64 * 86400, true⟩ (400 * 86400)
        [⟨true, true, [.file 5000000 0 true, .file 7 (399 * 86400) true]⟩] =
      .ok (⟨1, 2, 5000000, 5000007⟩, [⟨true, true, [.file 7 (399 * 86400) true]⟩]) ∧
    (1 : Nat) ≤ 2 ∧ (5000000 : Nat) ≤ 5000007 ∧
    0 ≤ ((2 : Nat) : Int) - ((1 : Nat) : Int) ∧
    0 ≤ ((5000007 : Nat) : Int) - ((5000000 : Nat) : Int) := by
  refine ⟨rfl, ?_⟩
  exact C10_deleted_never_exceeds_total.2 ⟨365 * 86400, 100 * 1000000, 64 * 86400, true⟩
    (400 * 86400) [⟨true, true, [.file 5000000 0 true, .file 7 (399 * 86400) true]⟩]
    ⟨1, 2, 5000000, 5000007⟩ [⟨true, true, [.file 7 (399 * 86400) true]⟩] rfl
